import Mathlib

/-!
Verification of the cache subsystem of the `mcp-volume-ranking` repository
(`src/cache/`): the key generator (`key_generator.py`), the in-process LRU
tier (`l2_cache.py`), the shared tier storage model (`l1_cache.py`,
Mock-backed), the hierarchical cache (`hierarchical_cache.py`) and the
memoization decorator (`decorators.py`), shallowly embedded in Lean.

Machine conventions: time is `Nat` seconds; Python values are modelled by
`PyVal`, whose `PyVal.none` constructor plays the role of Python `None`
(both as a storable value and as the miss result of a tier `get`, exactly
as in the source where both are the object `None`).
-/

namespace VolumeRanking

/-- Model of the Python values that flow through the cache: `None`,
integers and strings. `PyVal.none` is Python `None`. -/
inductive PyVal where
  | none
  | int (n : Int)
  | str (s : String)
deriving DecidableEq, Repr

/-- Python `f"{v}"` / `str(v)` on the modelled values. -/
def pyStr : PyVal → String
  | PyVal.none => "None"
  | PyVal.int n => toString n
  | PyVal.str s => s

/-- Rendering of one keyword argument as `f"{k}={v}"`
(`key_generator.py`, `generate_generic_key`). -/
def renderParam (p : String × PyVal) : String :=
  p.1 ++ "=" ++ pyStr p.2

/-- Comparison used by Python `sorted(kwargs.items())`: keyword arguments
come from a dict, so keys are pairwise distinct and tuple comparison
never reaches the values; the sort is by parameter name. -/
def keyLe (a b : String × PyVal) : Prop := a.1 ≤ b.1

/-- Strict version of `keyLe`, used to show sorted outputs are unique. -/
def keyLt (a b : String × PyVal) : Prop := a.1 < b.1

instance : DecidableRel keyLe := fun a b => inferInstanceAs (Decidable (a.1 ≤ b.1))

instance : IsTotal (String × PyVal) keyLe := ⟨fun a b => le_total a.1 b.1⟩

instance : IsTrans (String × PyVal) keyLe := ⟨fun _ _ _ h1 h2 => le_trans h1 h2⟩

instance : IsAntisymm (String × PyVal) keyLt :=
  ⟨fun a b h1 h2 =>
    absurd (show a.1 < b.1 from h1) (lt_asymm (show b.1 < a.1 from h2))⟩

/-- Python `":".join(strings)`. -/
def joinColon : List String → String
  | [] => ""
  | [s] => s
  | s :: rest => s ++ ":" ++ joinColon rest

/-- `CacheKeyGenerator.generate_generic_key` (`key_generator.py` lines
79-88): sort the keyword arguments, render each as `name=value`, join
with `":"`, and prefix the tool name; with no parameters the key is the
bare tool name. -/
def generate_generic_key (tool_name : String) (kwargs : List (String × PyVal)) : String :=
  let sorted_params := List.insertionSort keyLe kwargs
  let param_str := joinColon (sorted_params.map renderParam)
  if param_str ≠ "" then tool_name ++ ":" ++ param_str else tool_name

/-- `CacheKeyGenerator.default_ttls` (`key_generator.py` lines 22-31):
the static per-tool base TTL table, in seconds. -/
def default_ttls : List (String × Nat) :=
  [("volume_ranking", 30), ("investor_ranking", 60), ("volume_change", 120),
   ("sector_volume", 300), ("market_cap", 600), ("unusual_volume", 60),
   ("health_check", 10)]

/-- Python `dict.get` over an association list (first binding wins). -/
def dictGet : List (String × Nat) → String → Option Nat
  | [], _ => Option.none
  | (k, v) :: rest, name => if k = name then some v else dictGet rest name

/-- `CacheKeyGenerator.calculate_ttl` (`key_generator.py` lines 113-126)
with the trading-time flag supplied explicitly; the source's
`is_trading_time=None` default consults the wall clock
(`_is_trading_time`) and is outside the model. Base TTL defaults to 300
for unknown tools; trading time halves it (integer division), off-hours
doubles it. -/
def calculate_ttl (tool_name : String) (is_trading_time : Bool) : Nat :=
  let base_ttl := (dictGet default_ttls tool_name).getD 300
  if is_trading_time then base_ttl / 2 else base_ttl * 2

/-! ### Tier storage models -/

/-- Python dict lookup over an association list (unique keys; first
binding wins). -/
def alookup {α : Type} : List (String × α) → String → Option α
  | [], _ => Option.none
  | (k, v) :: rest, key => if k = key then some v else alookup rest key

/-- Python `del dict[key]` over an association list. -/
def aremove {α : Type} : List (String × α) → String → List (String × α)
  | [], _ => []
  | (k, v) :: rest, key =>
    if k = key then aremove rest key else (k, v) :: aremove rest key

/-- `CacheItem` (`l2_cache.py` lines 19-49). `expiresAt = Option.none`
means no expiry. -/
structure CacheItem where
  value : PyVal
  createdAt : Nat
  expiresAt : Option Nat
  accessCount : Nat
  lastAccessed : Nat
deriving DecidableEq, Repr

/-- `CacheItem.__init__`: created now, expiring `ttl` seconds later when
a TTL is given. -/
def CacheItem.create (value : PyVal) (ttl : Option Nat) (now : Nat) : CacheItem :=
  { value := value, createdAt := now,
    expiresAt := ttl.map (fun t => now + t),
    accessCount := 0, lastAccessed := now }

/-- `CacheItem.is_expired`: `datetime.now() > expires_at` (strict). -/
def CacheItem.isExpired (now : Nat) (item : CacheItem) : Bool :=
  match item.expiresAt with
  | Option.none => false
  | some e => decide (e < now)

/-- The `L2Cache._stats` dictionary. -/
structure L2Stats where
  hits : Nat
  misses : Nat
  sets : Nat
  deletes : Nat
  evictions : Nat
  expires : Nat
deriving DecidableEq, Repr

/-- State of `L2Cache` (`l2_cache.py`): an `OrderedDict` of entries with
the least-recently-used entry at the head, plus configuration and stats.
The background expiry sweep task is time-driven and not part of the
per-operation model. -/
structure L2State where
  entries : List (String × CacheItem)
  maxSize : Nat
  defaultTtl : Nat
  stats : L2Stats
deriving DecidableEq, Repr

/-- The `while len(self._cache) >= self.max_size: self._evict_lru()`
loop of `L2Cache.set` (lines 152-153 with `_evict_lru`, lines 110-120):
drop oldest entries from the head while at or above capacity; also
returns the number of evictions. (With `max_size = 0` the Python loop
does not terminate once the dict is empty; the model stops there.) -/
def evictLoop (maxSize : Nat) : List (String × CacheItem) → List (String × CacheItem) × Nat
  | [] => ([], 0)
  | e :: es =>
    if maxSize ≤ (e :: es).length then
      let r := evictLoop maxSize es
      (r.1, r.2 + 1)
    else (e :: es, 0)

/-- `L2Cache.set` (lines 126-164): default the TTL, build the item,
remove any existing binding, evict while at capacity, append the new
item at the most-recent end. Always succeeds. -/
def l2_set (st : L2State) (now : Nat) (key : String) (value : PyVal)
    (ttl : Option Nat) : L2State × Bool :=
  let ttlv := ttl.getD st.defaultTtl
  let item := CacheItem.create value (some ttlv) now
  let entries1 := aremove st.entries key
  let r := evictLoop st.maxSize entries1
  ({ st with
      entries := r.1 ++ [(key, item)],
      stats := { st.stats with
                  sets := st.stats.sets + 1,
                  evictions := st.stats.evictions + r.2 } }, true)

/-- `L2Cache.get` (lines 166-205): miss when absent; expired entries are
removed lazily and count as miss + expire; otherwise move to the
most-recent end, record the access and return the stored value. -/
def l2_get (st : L2State) (now : Nat) (key : String) : L2State × PyVal :=
  match alookup st.entries key with
  | Option.none =>
    ({ st with stats := { st.stats with misses := st.stats.misses + 1 } }, PyVal.none)
  | some item =>
    if item.isExpired now then
      ({ st with
          entries := aremove st.entries key,
          stats := { st.stats with
                      misses := st.stats.misses + 1,
                      expires := st.stats.expires + 1 } }, PyVal.none)
    else
      let item2 := { item with
                      accessCount := item.accessCount + 1,
                      lastAccessed := now }
      ({ st with
          entries := aremove st.entries key ++ [(key, item2)],
          stats := { st.stats with hits := st.stats.hits + 1 } }, item.value)

/-- `L2Cache.delete` (lines 207-229). -/
def l2_delete (st : L2State) (key : String) : L2State × Bool :=
  match alookup st.entries key with
  | some _ =>
    ({ st with
        entries := aremove st.entries key,
        stats := { st.stats with deletes := st.stats.deletes + 1 } }, true)
  | Option.none => (st, false)

/-- `L2Cache.exists` (lines 231-257): like `get` without the LRU update
or access record; removes a found expired entry. -/
def l2_exists (st : L2State) (now : Nat) (key : String) : L2State × Bool :=
  match alookup st.entries key with
  | Option.none => (st, false)
  | some item =>
    if item.isExpired now then
      ({ st with
          entries := aremove st.entries key,
          stats := { st.stats with expires := st.stats.expires + 1 } }, false)
    else (st, true)

/-- `L2Cache.clear` (lines 259-277). -/
def l2_clear (st : L2State) : L2State × Bool :=
  ({ st with
      entries := [],
      stats := { st.stats with deletes := st.stats.deletes + st.entries.length } }, true)

/-- An `L2Cache` operation, for stating state invariants. -/
inductive L2Op where
  | set (key : String) (value : PyVal) (ttl : Option Nat)
  | get (key : String)
  | del (key : String)
  | exs (key : String)
  | clear

/-- Apply one `L2Cache` operation to the state. -/
def l2_apply (now : Nat) (st : L2State) : L2Op → L2State
  | L2Op.set key value ttl => (l2_set st now key value ttl).1
  | L2Op.get key => (l2_get st now key).1
  | L2Op.del key => (l2_delete st key).1
  | L2Op.exs key => (l2_exists st now key).1
  | L2Op.clear => (l2_clear st).1

/-- State of `L1Cache` (`l1_cache.py`) backed by its in-process
`MockRedis` store: the `_data` and `_expiry` dicts of `MockRedis`
(lines 312-358). JSON round-tripping of plain values is the identity and
is not modelled separately. -/
structure L1State where
  data : List (String × PyVal)
  expiry : List (String × Nat)
deriving DecidableEq, Repr

/-- `L1Cache.set` via `MockRedis.setex` (lines 323-327): store the value
and its absolute expiry; always reports success. -/
def l1_set (st : L1State) (now : Nat) (key : String) (value : PyVal)
    (ttl : Nat) : L1State × Bool :=
  ({ data := aremove st.data key ++ [(key, value)],
     expiry := aremove st.expiry key ++ [(key, now + ttl)] }, true)

/-- `L1Cache.get` via `MockRedis.get` (lines 329-338): an expired entry
is removed and reported as a miss (`None`); otherwise the stored value
(possibly `None` itself) is returned. -/
def l1_get (st : L1State) (now : Nat) (key : String) : L1State × PyVal :=
  match alookup st.expiry key with
  | some e =>
    if e < now then
      ({ data := aremove st.data key, expiry := aremove st.expiry key }, PyVal.none)
    else (st, (alookup st.data key).getD PyVal.none)
  | Option.none => (st, (alookup st.data key).getD PyVal.none)

/-- `L1Cache.delete` via `MockRedis.delete` (lines 340-349): true when a
binding was removed. -/
def l1_delete (st : L1State) (key : String) : L1State × Bool :=
  match alookup st.data key with
  | some _ =>
    ({ data := aremove st.data key, expiry := aremove st.expiry key }, true)
  | Option.none => (st, false)

/-- `L1Cache.exists` via `MockRedis.exists` (lines 356-358): membership
in `_data`, with no expiry check. -/
def l1_exists (st : L1State) (key : String) : Bool :=
  (alookup st.data key).isSome

/-! ### Hierarchical cache (concrete two-tier model) -/

/-- The `HierarchicalCache._stats` dictionary
(`hierarchical_cache.py` lines 31-39). -/
structure HStats where
  l1Hits : Nat
  l1Misses : Nat
  l2Hits : Nat
  l2Misses : Nat
  sets : Nat
  deletes : Nat
  invalidations : Nat
deriving DecidableEq, Repr

/-- State of a `HierarchicalCache`: both tier states, the hierarchical
stats, the enable flags and the settings-provided default TTLs
(`cache_l1_ttl_seconds`, `cache_l2_ttl_seconds`). -/
structure HState where
  l1 : L1State
  l2 : L2State
  stats : HStats
  l1Enabled : Bool
  l2Enabled : Bool
  l1DefaultTtl : Nat
  l2DefaultTtl : Nat
deriving DecidableEq, Repr

/-- Python `ttl or default` (`hierarchical_cache.py` lines 111 and 123):
`None` and the falsy `0` both select the default. -/
def pyOrTtl (ttl : Option Nat) (default : Nat) : Nat :=
  match ttl with
  | Option.none => default
  | some 0 => default
  | some t => t

/-- `HierarchicalCache.get` (lines 46-91): query L1 first (hit returns
immediately), then L2; an L2 hit is promoted into L1 with the fixed
`ttl=300` (line 78) before returning. Stats record per-tier hits and
misses. The concrete tiers never raise, so the outer catch is inert. -/
def hc_get (st : HState) (now : Nat) (key : String) : HState × PyVal :=
  let l2Step := fun (st : HState) =>
    if st.l2Enabled then
      let r := l2_get st.l2 now key
      let st2 := { st with l2 := r.1 }
      if r.2 ≠ PyVal.none then
        let st3 := { st2 with stats := { st2.stats with l2Hits := st2.stats.l2Hits + 1 } }
        let st4 := if st3.l1Enabled then
            { st3 with l1 := (l1_set st3.l1 now key r.2 300).1 }
          else st3
        (st4, r.2)
      else
        ({ st2 with stats := { st2.stats with l2Misses := st2.stats.l2Misses + 1 } },
          PyVal.none)
    else (st, PyVal.none)
  if st.l1Enabled then
    let r := l1_get st.l1 now key
    let st1 := { st with l1 := r.1 }
    if r.2 ≠ PyVal.none then
      ({ st1 with stats := { st1.stats with l1Hits := st1.stats.l1Hits + 1 } }, r.2)
    else
      l2Step { st1 with stats := { st1.stats with l1Misses := st1.stats.l1Misses + 1 } }
  else l2Step st

/-- `HierarchicalCache.set` (lines 93-140): write through both enabled
tiers with `ttl or tier-default`; `sets` is incremented only when no
enabled tier write failed. -/
def hc_set (st : HState) (now : Nat) (key : String) (value : PyVal)
    (ttl : Option Nat) : HState × Bool :=
  let r1 :=
    if st.l1Enabled then
      let w := l1_set st.l1 now key value (pyOrTtl ttl st.l1DefaultTtl)
      ({ st with l1 := w.1 }, w.2)
    else (st, true)
  let r2 :=
    if r1.1.l2Enabled then
      let w := l2_set r1.1.l2 now key value (some (pyOrTtl ttl r1.1.l2DefaultTtl))
      ({ r1.1 with l2 := w.1 }, r1.2 && w.2)
    else (r1.1, r1.2)
  if r2.2 then
    ({ r2.1 with stats := { r2.1.stats with sets := r2.1.stats.sets + 1 } }, true)
  else (r2.1, false)

/-- `HierarchicalCache.delete` (lines 142-183): delete from both enabled
tiers; `deletes` is incremented only when every enabled tier reported a
successful delete. -/
def hc_delete (st : HState) (key : String) : HState × Bool :=
  let r1 :=
    if st.l1Enabled then
      let w := l1_delete st.l1 key
      ({ st with l1 := w.1 }, w.2)
    else (st, true)
  let r2 :=
    if r1.1.l2Enabled then
      let w := l2_delete r1.1.l2 key
      ({ r1.1 with l2 := w.1 }, r1.2 && w.2)
    else (r1.1, r1.2)
  if r2.2 then
    ({ r2.1 with stats := { r2.1.stats with deletes := r2.1.stats.deletes + 1 } }, true)
  else (r2.1, false)

/-- `HierarchicalCache.invalidate` (lines 185-204): exactly `delete`,
plus an `invalidations` increment when the delete succeeded. -/
def hc_invalidate (st : HState) (key : String) : HState × Bool :=
  let r := hc_delete st key
  if r.2 then
    ({ r.1 with stats := { r.1.stats with invalidations := r.1.stats.invalidations + 1 } },
      r.2)
  else r

/-- `HierarchicalCache.exists` (lines 246-271). -/
def hc_exists (st : HState) (now : Nat) (key : String) : HState × Bool :=
  if st.l1Enabled && l1_exists st.l1 key then (st, true)
  else if st.l2Enabled then
    let r := l2_exists st.l2 now key
    ({ st with l2 := r.1 }, r.2)
  else (st, false)

/-! ### Hierarchical cache control flow abstracted over tier outcomes

The same `hierarchical_cache.py` methods, with each tier call's outcome
(`Except.error` = the call raised) supplied as an input, to settle the
failure-path claims. -/

/-- The `try` body of `HierarchicalCache.get` (lines 56-87) as a
function of the two tier-get outcomes; a raised tier exception
propagates out of the body. The promotion attempt sits in its own
`try`/`except` (lines 76-80), so its outcome cannot escape and is not an
input. -/
def get_flow_body (l1E l2E : Bool) (r1 r2 : Except Unit PyVal) : Except Unit PyVal := do
  if l1E then
    let v1 ← r1
    if v1 ≠ PyVal.none then return v1
  if l2E then
    let v2 ← r2
    if v2 ≠ PyVal.none then return v2
  return PyVal.none

/-- `HierarchicalCache.get` with its outer `except` (lines 89-91): any
exception escaping the body degrades to a miss (`None`). -/
def get_flow (l1E l2E : Bool) (r1 r2 : Except Unit PyVal) : PyVal :=
  match get_flow_body l1E l2E r1 r2 with
  | Except.ok v => v
  | Except.error _ => PyVal.none

/-- The `try` body of `HierarchicalCache.exists` (lines 256-267). -/
def exists_flow_body (l1E l2E : Bool) (r1 r2 : Except Unit Bool) : Except Unit Bool := do
  if l1E then
    let b1 ← r1
    if b1 then return true
  if l2E then
    let b2 ← r2
    if b2 then return true
  return false

/-- `HierarchicalCache.exists` with its outer `except` (lines 269-271):
any exception degrades to `false`. -/
def exists_flow (l1E l2E : Bool) (r1 r2 : Except Unit Bool) : Bool :=
  match exists_flow_body l1E l2E r1 r2 with
  | Except.ok b => b
  | Except.error _ => false

/-- `HierarchicalCache.set` (lines 105-136) as a function of the two
tier-set outcomes and the current `sets` counter: each tier call sits in
its own `try`/`except` that maps a raise to `success = False`, a
returned `False` also clears `success`, and the counter is bumped only
when `success` survived. Returns (overall result, new counter). -/
def set_flow (l1E l2E : Bool) (r1 r2 : Except Unit Bool) (sets : Nat) : Bool × Nat :=
  let success := true
  let success :=
    if l1E then
      match r1 with
      | Except.ok b => success && b
      | Except.error _ => false
    else success
  let success :=
    if l2E then
      match r2 with
      | Except.ok b => success && b
      | Except.error _ => false
    else success
  (success, if success then sets + 1 else sets)

/-- `HierarchicalCache.delete` (lines 152-179) as a function of the two
tier-delete outcomes and the `deletes` counter; same per-tier catch
shape as `set_flow`. -/
def delete_flow (l1E l2E : Bool) (r1 r2 : Except Unit Bool) (deletes : Nat) : Bool × Nat :=
  let success := true
  let success :=
    if l1E then
      match r1 with
      | Except.ok b => success && b
      | Except.error _ => false
    else success
  let success :=
    if l2E then
      match r2 with
      | Except.ok b => success && b
      | Except.error _ => false
    else success
  (success, if success then deletes + 1 else deletes)

/-- `HierarchicalCache.invalidate` (lines 195-200) over `delete_flow`:
returns (result, new deletes counter, new invalidations counter). -/
def invalidate_flow (l1E l2E : Bool) (r1 r2 : Except Unit Bool)
    (deletes invalidations : Nat) : Bool × Nat × Nat :=
  let r := delete_flow l1E l2E r1 r2 deletes
  if r.1 then (true, r.2, invalidations + 1) else (false, r.2, invalidations)

/-! ### Memoization wrapper (`decorators.py`) -/

/-- `cache_result.wrapper` (`decorators.py` lines 48-87) as a function
of the cached lookup result, the wrapped operation's behaviour on its
`n`-th invocation (`f n`, `Except.error` = it raised), the caching
condition and the `cache.set` outcome (whose own `try`/`except` at lines
76-80 only logs failures). Returns (overall outcome, number of times the
wrapped operation was invoked). A cache hit short-circuits; on a miss
the operation runs; if it raises, the wrapper's catch-all `except`
(lines 84-87) runs the operation a second time and returns that
outcome, raised or not. -/
def cache_result_wrapper (cached : PyVal) (f : Nat → Except Unit PyVal)
    (cond : PyVal → Bool) (setOutcome : Except Unit Bool) : Except Unit PyVal × Nat :=
  if cached ≠ PyVal.none then (Except.ok cached, 0)
  else
    match f 0 with
    | Except.ok v =>
      let _ := if cond v then setOutcome else Except.ok true
      (Except.ok v, 1)
    | Except.error _ => (f 1, 2)

/-! ### Concrete sample states used as test inputs -/

/-- An empty hierarchical cache with both tiers enabled and the
settings defaults (`cache_l1_ttl_seconds = 60`,
`cache_l2_ttl_seconds = 300`, `cache_l2_max_size = 1000`). -/
def emptyHState : HState :=
  { l1 := { data := [], expiry := [] },
    l2 := { entries := [], maxSize := 1000, defaultTtl := 300,
            stats := ⟨0, 0, 0, 0, 0, 0⟩ },
    stats := ⟨0, 0, 0, 0, 0, 0, 0⟩,
    l1Enabled := true, l2Enabled := true,
    l1DefaultTtl := 60, l2DefaultTtl := 300 }

/-- A cache holding `"y"` only in the L1 tier (the shared, TTL-indexed
store), written at time 0 with expiry 100; the in-process LRU L2 tier is
empty. -/
def l1OnlySt : HState :=
  { l1 := { data := [("y", PyVal.int 1)], expiry := [("y", 100)] },
    l2 := { entries := [], maxSize := 1000, defaultTtl := 300,
            stats := ⟨0, 0, 0, 0, 0, 0⟩ },
    stats := ⟨0, 0, 0, 0, 0, 0, 0⟩,
    l1Enabled := true, l2Enabled := true,
    l1DefaultTtl := 60, l2DefaultTtl := 300 }

/-- A cache holding `"y"` only in the L2 tier, stored at time 0 with a
60-second TTL. -/
def l2OnlySt : HState :=
  { l1 := { data := [], expiry := [] },
    l2 := { entries := [("y", CacheItem.create (PyVal.int 1) (some 60) 0)],
            maxSize := 1000, defaultTtl := 300,
            stats := ⟨0, 0, 0, 0, 0, 0⟩ },
    stats := ⟨0, 0, 0, 0, 0, 0, 0⟩,
    l1Enabled := true, l2Enabled := true,
    l1DefaultTtl := 60, l2DefaultTtl := 300 }

/-- A cache holding `"k"` in both tiers, all counters zero. -/
def bothTiersSt : HState :=
  { l1 := { data := [("k", PyVal.int 1)], expiry := [("k", 100)] },
    l2 := { entries := [("k", CacheItem.create (PyVal.int 1) (some 100) 0)],
            maxSize := 10, defaultTtl := 300,
            stats := ⟨0, 0, 0, 0, 0, 0⟩ },
    stats := ⟨0, 0, 0, 0, 0, 0, 0⟩,
    l1Enabled := true, l2Enabled := true,
    l1DefaultTtl := 60, l2DefaultTtl := 300 }

/-! ### Key generator lemmas -/

theorem eq_empty_of_length_eq_zero {s : String} (h : s.length = 0) : s = "" := by
  cases s with
  | mk data =>
    have hd : data = [] := List.length_eq_zero.mp h
    subst hd
    rfl

theorem length_renderParam_pos (p : String × PyVal) : 0 < (renderParam p).length := by
  simp only [renderParam, String.length_append]
  have h1 : ("=" : String).length = 1 := rfl
  omega

theorem length_le_joinColon (x : String) (xs : List String) :
    x.length ≤ (joinColon (x :: xs)).length := by
  cases xs with
  | nil => simp [joinColon]
  | cons y ys => simp only [joinColon, String.length_append]; omega

theorem joinColon_cons_ne_empty (x : String) (xs : List String) (hx : x ≠ "") :
    joinColon (x :: xs) ≠ "" := by
  intro h
  apply hx
  have hlen : x.length ≤ (joinColon (x :: xs)).length := length_le_joinColon x xs
  rw [h] at hlen
  simp only [String.length_empty, Nat.le_zero] at hlen
  exact eq_empty_of_length_eq_zero hlen

theorem renderParam_ne_empty (p : String × PyVal) : renderParam p ≠ "" := by
  intro h
  have := length_renderParam_pos p
  rw [h] at this
  simp at this

/-- Two lists of parameters with the same elements and duplicate-free
names, both sorted by name, are equal. -/
theorem sorted_params_unique {l1 l2 : List (String × PyVal)} (hp : l1.Perm l2)
    (hn : (l1.map Prod.fst).Nodup)
    (hs1 : List.Sorted keyLe l1) (hs2 : List.Sorted keyLe l2) : l1 = l2 := by
  have hn2 : (l2.map Prod.fst).Nodup := ((hp.map Prod.fst).nodup_iff).mp hn
  have hpw1 : l1.Pairwise (fun a b : String × PyVal => a.1 ≠ b.1) :=
    (List.pairwise_map).mp hn
  have hpw2 : l2.Pairwise (fun a b : String × PyVal => a.1 ≠ b.1) :=
    (List.pairwise_map).mp hn2
  have hlt1 : List.Sorted keyLt l1 :=
    (hs1.and hpw1).imp (fun h => lt_of_le_of_ne h.1 h.2)
  have hlt2 : List.Sorted keyLt l2 :=
    (hs2.and hpw2).imp (fun h => lt_of_le_of_ne h.1 h.2)
  exact List.eq_of_perm_of_sorted hp hlt1 hlt2

/-- Claim C4 (amended): `generate_generic_key` renders every parameter —
including those whose value is `None`, which appear as `name=None` rather
than being omitted — as `name=value`, sorted by parameter name, joined by
`":"` and prefixed by the operation name. -/
theorem generate_generic_key_canonical_form (op : String)
    (kwargs : List (String × PyVal)) (hne : kwargs ≠ []) :
    ∃ l, kwargs.Perm l ∧ List.Sorted keyLe l ∧
      generate_generic_key op kwargs = op ++ ":" ++ joinColon (l.map renderParam) := by
  refine ⟨List.insertionSort keyLe kwargs,
    (List.perm_insertionSort keyLe kwargs).symm,
    List.sorted_insertionSort keyLe kwargs, ?_⟩
  unfold generate_generic_key
  cases hsort : List.insertionSort keyLe kwargs with
  | nil =>
    exact absurd (List.Perm.eq_nil (hsort ▸ (List.perm_insertionSort keyLe kwargs).symm)) hne
  | cons x xs =>
    simp only [List.map_cons]
    rw [if_pos (joinColon_cons_ne_empty _ _ (renderParam_ne_empty x))]

/-- Witness for C4's amended theorem at a concrete input. -/
theorem generate_generic_key_canonical_form_witness :
    [("a", PyVal.none)] ≠ ([] : List (String × PyVal)) ∧
    ∃ l, [("a", PyVal.none)].Perm l ∧ List.Sorted keyLe l ∧
      generate_generic_key "op" [("a", PyVal.none)] =
        "op" ++ ":" ++ joinColon (l.map renderParam) :=
  ⟨by decide, generate_generic_key_canonical_form "op" [("a", PyVal.none)] (by decide)⟩

/-- Counterexample to claim C4 as stated: a parameter whose value is
`None` is not omitted; it is rendered as `name=None`. With omission the
key would be the bare `"op"`. -/
theorem generate_generic_key_renders_none :
    generate_generic_key "op" [("a", PyVal.none)] = "op:a=None" ∧
    generate_generic_key "op" [("a", PyVal.none)] ≠ "op" := by
  constructor
  · rfl
  · decide

/-- Claim C5: for every tool with a base TTL in the static table,
`calculate_ttl` returns half the base during a trading session and double
the base outside one; concretely 15 and 60 for `volume_ranking` (base 30). -/
theorem calculate_ttl_halves_and_doubles :
    (∀ p, p ∈ default_ttls →
      calculate_ttl p.1 true = p.2 / 2 ∧ calculate_ttl p.1 false = p.2 * 2) ∧
    calculate_ttl "volume_ranking" true = 15 ∧
    calculate_ttl "volume_ranking" false = 60 := by
  refine ⟨?_, by decide, by decide⟩
  intro p hp
  simp only [default_ttls, List.mem_cons, List.not_mem_nil, or_false] at hp
  rcases hp with rfl | rfl | rfl | rfl | rfl | rfl | rfl <;> exact ⟨by decide, by decide⟩

/-- Witness for C5 at the `volume_ranking` table entry. -/
theorem calculate_ttl_halves_and_doubles_witness :
    ("volume_ranking", 30) ∈ default_ttls ∧
    calculate_ttl "volume_ranking" true = 30 / 2 :=
  ⟨by decide, (calculate_ttl_halves_and_doubles.1 ("volume_ranking", 30) (by decide)).1⟩

/-- Claim C6: key canonicalization is insertion-order independent — two
parameter maps equal as sets of (name, value) pairs, with duplicate-free
names, generate the identical key string. -/
theorem generate_generic_key_order_independent (op : String)
    (p1 p2 : List (String × PyVal))
    (hn1 : (p1.map Prod.fst).Nodup) (hn2 : (p2.map Prod.fst).Nodup)
    (hset : ∀ p, p ∈ p1 ↔ p ∈ p2) :
    generate_generic_key op p1 = generate_generic_key op p2 := by
  have hd1 : p1.Nodup := hn1.of_map Prod.fst
  have hd2 : p2.Nodup := hn2.of_map Prod.fst
  have hperm : p1.Perm p2 := (List.perm_ext_iff_of_nodup hd1 hd2).mpr hset
  have hsorteq : List.insertionSort keyLe p1 = List.insertionSort keyLe p2 := by
    apply sorted_params_unique
    · exact (List.perm_insertionSort keyLe p1).trans
        (hperm.trans (List.perm_insertionSort keyLe p2).symm)
    · exact (((List.perm_insertionSort keyLe p1).map Prod.fst).nodup_iff).mpr hn1
    · exact List.sorted_insertionSort keyLe p1
    · exact List.sorted_insertionSort keyLe p2
  unfold generate_generic_key
  rw [hsorteq]

/-- Witness for C6 at two concrete insertion orders of the same map. -/
theorem generate_generic_key_order_independent_witness :
    generate_generic_key "op" [("b", PyVal.int 2), ("a", PyVal.int 1)] =
      generate_generic_key "op" [("a", PyVal.int 1), ("b", PyVal.int 2)] :=
  generate_generic_key_order_independent "op"
    [("b", PyVal.int 2), ("a", PyVal.int 1)]
    [("a", PyVal.int 1), ("b", PyVal.int 2)]
    (by decide) (by decide)
    (by intro p; constructor <;> intro h <;> simp only [List.mem_cons] at h ⊢ <;> tauto)

/-! ### Association list and eviction lemmas -/

theorem alookup_aremove_self {α : Type} (l : List (String × α)) (key : String) :
    alookup (aremove l key) key = Option.none := by
  induction l with
  | nil => rfl
  | cons e es ih =>
    cases e with
    | mk k v =>
      by_cases h : k = key
      · simpa [aremove, h] using ih
      · simpa [aremove, alookup, h] using ih

theorem alookup_append_left_none {α : Type} {l1 : List (String × α)}
    (l2 : List (String × α)) (key : String) (h : alookup l1 key = Option.none) :
    alookup (l1 ++ l2) key = alookup l2 key := by
  induction l1 with
  | nil => rfl
  | cons e es ih =>
    cases e with
    | mk k v =>
      by_cases hk : k = key
      · simp [alookup, hk] at h
      · simp only [alookup, hk, if_false, List.cons_append] at h ⊢
        exact ih h

theorem alookup_snoc_self {α : Type} (l : List (String × α)) (key : String) (x : α) :
    alookup (aremove l key ++ [(key, x)]) key = some x := by
  rw [alookup_append_left_none _ _ (alookup_aremove_self l key)]
  simp [alookup]

theorem alookup_evictLoop_none (m : Nat) (l : List (String × CacheItem)) (key : String)
    (h : alookup l key = Option.none) :
    alookup (evictLoop m l).1 key = Option.none := by
  induction l with
  | nil => simpa [evictLoop] using h
  | cons e es ih =>
    cases e with
    | mk k v =>
      have hk : k ≠ key := by
        intro hkk
        simp [alookup, hkk] at h
      have htail : alookup es key = Option.none := by
        simpa [alookup, hk] using h
      rw [evictLoop]
      split
      · exact ih htail
      · simp only [alookup, hk, if_false]
        exact htail

theorem evictLoop_length_lt (m : Nat) (hm : 1 ≤ m) :
    ∀ l : List (String × CacheItem), ((evictLoop m l).1).length < m := by
  intro l
  induction l with
  | nil => simpa [evictLoop] using hm
  | cons e es ih =>
    rw [evictLoop]
    split
    · exact ih
    · rename_i hc
      exact Nat.lt_of_not_le hc

theorem aremove_length_le {α : Type} (l : List (String × α)) (key : String) :
    (aremove l key).length ≤ l.length := by
  induction l with
  | nil => exact Nat.le_refl 0
  | cons e es ih =>
    cases e with
    | mk k v =>
      by_cases hk : k = key
      · simp only [aremove, hk, if_true, List.length_cons]
        omega
      · simp only [aremove, hk, if_false, List.length_cons]
        omega

theorem aremove_length_lt {α : Type} (l : List (String × α)) (key : String) (x : α)
    (h : alookup l key = some x) : (aremove l key).length < l.length := by
  induction l with
  | nil => cases h
  | cons e es ih =>
    cases e with
    | mk k v =>
      by_cases hk : k = key
      · have := aremove_length_le es key
        simp only [aremove, hk, if_true, List.length_cons]
        omega
      · have htail : alookup es key = some x := by simpa [alookup, hk] using h
        have := ih htail
        simp only [aremove, hk, if_false, List.length_cons]
        omega

theorem alookup_snoc_self_of_evict (l : List (String × CacheItem)) (m : Nat)
    (key : String) (x : CacheItem) :
    alookup ((evictLoop m (aremove l key)).1 ++ [(key, x)]) key = some x := by
  rw [alookup_append_left_none _ _
    (alookup_evictLoop_none m _ key (alookup_aremove_self l key))]
  simp [alookup]

theorem alookup_l2_set_entries (st : L2State) (now : Nat) (key : String)
    (value : PyVal) (ttl : Option Nat) :
    alookup (l2_set st now key value ttl).1.entries key =
      some (CacheItem.create value (some (ttl.getD st.defaultTtl)) now) := by
  unfold l2_set
  exact alookup_snoc_self_of_evict st.entries st.maxSize key _

/-- Claim C10: the in-process LRU tier never holds more than `max_size`
entries: every operation maps a state within the bound (with a positive
`max_size`) to a state within the bound, and `set` in fact restores the
bound from any state because it evicts down below capacity before
inserting. -/
theorem l2_size_bounded (now : Nat) (st : L2State) (op : L2Op)
    (hmax : 1 ≤ st.maxSize) (hlen : st.entries.length ≤ st.maxSize) :
    (l2_apply now st op).entries.length ≤ st.maxSize ∧
    (l2_apply now st op).maxSize = st.maxSize := by
  cases op with
  | set key value ttl =>
    refine ⟨?_, rfl⟩
    have h := evictLoop_length_lt st.maxSize hmax (aremove st.entries key)
    simp only [l2_apply, l2_set, List.length_append, List.length_cons, List.length_nil]
    omega
  | get key =>
    refine ⟨?_, ?_⟩
    · cases halk : alookup st.entries key with
      | none => simpa [l2_apply, l2_get, halk] using hlen
      | some item =>
        by_cases hexp : item.isExpired now = true
        · have h := aremove_length_le st.entries key
          simp only [l2_apply, l2_get, halk, hexp, if_true]
          omega
        · have h := aremove_length_lt st.entries key item halk
          simp [l2_apply, l2_get, halk, hexp]
          omega
    · cases halk : alookup st.entries key with
      | none => simp [l2_apply, l2_get, halk]
      | some item =>
        by_cases hexp : item.isExpired now = true <;>
          simp [l2_apply, l2_get, halk, hexp]
  | del key =>
    refine ⟨?_, ?_⟩
    · cases halk : alookup st.entries key with
      | none => simpa [l2_apply, l2_delete, halk] using hlen
      | some item =>
        have h := aremove_length_le st.entries key
        simp only [l2_apply, l2_delete, halk]
        omega
    · cases halk : alookup st.entries key with
      | none => simp [l2_apply, l2_delete, halk]
      | some item => simp [l2_apply, l2_delete, halk]
  | exs key =>
    refine ⟨?_, ?_⟩
    · cases halk : alookup st.entries key with
      | none => simpa [l2_apply, l2_exists, halk] using hlen
      | some item =>
        by_cases hexp : item.isExpired now = true
        · have h := aremove_length_le st.entries key
          simp only [l2_apply, l2_exists, halk, hexp, if_true]
          omega
        · simpa [l2_apply, l2_exists, halk, hexp] using hlen
    · cases halk : alookup st.entries key with
      | none => simp [l2_apply, l2_exists, halk]
      | some item =>
        by_cases hexp : item.isExpired now = true <;>
          simp [l2_apply, l2_exists, halk, hexp]
  | clear =>
    refine ⟨?_, rfl⟩
    simp only [l2_apply, l2_clear, List.length_nil]
    omega

/-- Witness for C10 at a concrete state and operation. -/
theorem l2_size_bounded_witness :
    (l2_apply 0 ⟨[], 1000, 300, ⟨0, 0, 0, 0, 0, 0⟩⟩
      (L2Op.set "k" (PyVal.int 1) Option.none)).entries.length ≤ 1000 :=
  (l2_size_bounded 0 ⟨[], 1000, 300, ⟨0, 0, 0, 0, 0, 0⟩⟩
    (L2Op.set "k" (PyVal.int 1) Option.none) (by decide) (by decide)).1

/-- Claim C2 (amended): `sets` is incremented — and `set` reports
success — exactly when every enabled tier's write succeeded; a partial
failure reports overall failure and leaves the counter unchanged. -/
theorem set_flow_counts_all_tier_success (l1E l2E : Bool)
    (r1 r2 : Except Unit Bool) (sets : Nat) :
    ((set_flow l1E l2E r1 r2 sets).2 = sets + 1 ↔
      ((l1E = true → r1 = Except.ok true) ∧ (l2E = true → r2 = Except.ok true))) ∧
    ((set_flow l1E l2E r1 r2 sets).1 = true ↔
      ((l1E = true → r1 = Except.ok true) ∧ (l2E = true → r2 = Except.ok true))) := by
  cases l1E <;> cases l2E <;>
    rcases r1 with e1 | b1 <;> rcases r2 with e2 | b2 <;>
    first
      | (cases b1 <;> cases b2 <;> simp [set_flow])
      | (cases b1 <;> simp [set_flow])
      | (cases b2 <;> simp [set_flow])
      | simp [set_flow]

/-- Counterexample to claim C2 as stated: both tiers enabled, the L1
write raises while the L2 write succeeds — at least one tier's write
succeeded, yet the `sets` counter stays at 0 (and `set` reports
failure). -/
theorem set_flow_partial_success_not_counted :
    (set_flow true true (Except.error ()) (Except.ok true) 0).2 = 0 ∧
    (set_flow true true (Except.error ()) (Except.ok true) 0).1 = false := by
  decide

theorem set_flow_error_false (l1E l2E : Bool) (r1 r2 : Except Unit Bool) (n : Nat)
    (h : (l1E = true ∧ r1 = Except.error ()) ∨ (l2E = true ∧ r2 = Except.error ())) :
    (set_flow l1E l2E r1 r2 n).1 = false := by
  rcases h with ⟨hE, hr⟩ | ⟨hE, hr⟩ <;> subst hE <;> subst hr
  · cases l2E <;> rcases r2 with e2 | b2 <;> simp [set_flow]
  · cases l1E <;> rcases r1 with e1 | b1 <;> simp [set_flow]

theorem delete_flow_error_false (l1E l2E : Bool) (r1 r2 : Except Unit Bool) (n : Nat)
    (h : (l1E = true ∧ r1 = Except.error ()) ∨ (l2E = true ∧ r2 = Except.error ())) :
    (delete_flow l1E l2E r1 r2 n).1 = false := by
  rcases h with ⟨hE, hr⟩ | ⟨hE, hr⟩ <;> subst hE <;> subst hr
  · cases l2E <;> rcases r2 with e2 | b2 <;> simp [delete_flow]
  · cases l1E <;> rcases r1 with e1 | b1 <;> simp [delete_flow]

/-- Claim C7: a tier exception escaping the body of `get` or `exists`
is absorbed by the outer handler (miss / `false`), while a tier
exception during `set`, `delete` or `invalidate` is reported to the
caller as an explicit failed result. -/
theorem tier_errors_contained :
    (∀ (l1E l2E : Bool) (r1 r2 : Except Unit PyVal) (e : Unit),
      get_flow_body l1E l2E r1 r2 = Except.error e →
      get_flow l1E l2E r1 r2 = PyVal.none) ∧
    (∀ (l1E l2E : Bool) (r1 r2 : Except Unit Bool) (e : Unit),
      exists_flow_body l1E l2E r1 r2 = Except.error e →
      exists_flow l1E l2E r1 r2 = false) ∧
    (∀ (l1E l2E : Bool) (r1 r2 : Except Unit Bool) (sets : Nat),
      ((l1E = true ∧ r1 = Except.error ()) ∨ (l2E = true ∧ r2 = Except.error ())) →
      (set_flow l1E l2E r1 r2 sets).1 = false) ∧
    (∀ (l1E l2E : Bool) (r1 r2 : Except Unit Bool) (deletes : Nat),
      ((l1E = true ∧ r1 = Except.error ()) ∨ (l2E = true ∧ r2 = Except.error ())) →
      (delete_flow l1E l2E r1 r2 deletes).1 = false) ∧
    (∀ (l1E l2E : Bool) (r1 r2 : Except Unit Bool) (deletes invalidations : Nat),
      ((l1E = true ∧ r1 = Except.error ()) ∨ (l2E = true ∧ r2 = Except.error ())) →
      (invalidate_flow l1E l2E r1 r2 deletes invalidations).1 = false) := by
  refine ⟨?_, ?_, ?_, ?_, ?_⟩
  · intro l1E l2E r1 r2 e h
    unfold get_flow
    rw [h]
  · intro l1E l2E r1 r2 e h
    unfold exists_flow
    rw [h]
  · intro l1E l2E r1 r2 sets h
    exact set_flow_error_false l1E l2E r1 r2 sets h
  · intro l1E l2E r1 r2 deletes h
    exact delete_flow_error_false l1E l2E r1 r2 deletes h
  · intro l1E l2E r1 r2 deletes invalidations h
    have hd := delete_flow_error_false l1E l2E r1 r2 deletes h
    dsimp only [invalidate_flow]
    rw [hd]
    simp

/-- Witness for C7 at concrete raising tiers. -/
theorem tier_errors_contained_witness :
    get_flow_body true true (Except.error ()) (Except.ok PyVal.none) = Except.error () ∧
    get_flow true true (Except.error ()) (Except.ok PyVal.none) = PyVal.none ∧
    exists_flow true true (Except.error ()) (Except.ok false) = false ∧
    (set_flow true true (Except.error ()) (Except.ok true) 5).1 = false ∧
    (delete_flow true true (Except.ok true) (Except.error ()) 5).1 = false ∧
    (invalidate_flow true true (Except.error ()) (Except.ok true) 5 7).1 = false :=
  ⟨rfl,
    tier_errors_contained.1 true true (Except.error ()) (Except.ok PyVal.none) () rfl,
    tier_errors_contained.2.1 true true (Except.error ()) (Except.ok false) () rfl,
    tier_errors_contained.2.2.1 true true (Except.error ()) (Except.ok true) 5
      (Or.inl ⟨rfl, rfl⟩),
    tier_errors_contained.2.2.2.1 true true (Except.ok true) (Except.error ()) 5
      (Or.inr ⟨rfl, rfl⟩),
    tier_errors_contained.2.2.2.2 true true (Except.error ()) (Except.ok true) 5 7
      (Or.inl ⟨rfl, rfl⟩)⟩

/-- Claim C8: on a cache miss, when the wrapped operation raises, the
wrapper's catch-all error path executes the operation a second time in
the same call and returns that second outcome — the operation is not
run at most once. -/
theorem cache_result_wrapper_reinvokes (f : Nat → Except Unit PyVal)
    (cond : PyVal → Bool) (setOutcome : Except Unit Bool)
    (h0 : f 0 = Except.error ()) :
    cache_result_wrapper PyVal.none f cond setOutcome = (f 1, 2) := by
  unfold cache_result_wrapper
  simp [h0]

/-- Witness for C8 with an operation that always raises. -/
theorem cache_result_wrapper_reinvokes_witness :
    cache_result_wrapper PyVal.none (fun _ => Except.error ()) (fun _ => true)
      (Except.ok true) = (Except.error (), 2) :=
  cache_result_wrapper_reinvokes (fun _ => Except.error ()) (fun _ => true)
    (Except.ok true) rfl

/-! ### Hierarchical cache lemmas -/

theorem alookup_l1_set_data (s : L1State) (now : Nat) (key : String) (v : PyVal)
    (t : Nat) : alookup (l1_set s now key v t).1.data key = some v := by
  unfold l1_set
  exact alookup_snoc_self _ _ _

theorem alookup_l1_set_expiry (s : L1State) (now : Nat) (key : String) (v : PyVal)
    (t : Nat) : alookup (l1_set s now key v t).1.expiry key = some (now + t) := by
  unfold l1_set
  exact alookup_snoc_self _ _ _

theorem l1_get_stored_none (s : L1State) (now2 : Nat) (key : String)
    (hd : alookup s.data key = some PyVal.none) :
    (l1_get s now2 key).2 = PyVal.none := by
  unfold l1_get
  cases he : alookup s.expiry key with
  | none => simp [hd]
  | some e => by_cases hlt : e < now2 <;> simp [hlt, hd]

theorem l2_get_stored_none (s : L2State) (now2 : Nat) (key : String)
    (item : CacheItem) (hf : alookup s.entries key = some item)
    (hv : item.value = PyVal.none) :
    (l2_get s now2 key).2 = PyVal.none := by
  unfold l2_get
  rw [hf]
  by_cases hexp : item.isExpired now2 = true <;> simp [hexp, hv]

theorem hc_get_both_none (s : HState) (now2 : Nat) (key : String)
    (hl1 : s.l1Enabled = true) (hl2 : s.l2Enabled = true)
    (h1 : (l1_get s.l1 now2 key).2 = PyVal.none)
    (h2 : (l2_get s.l2 now2 key).2 = PyVal.none) :
    (hc_get s now2 key).2 = PyVal.none ∧
    (hc_get s now2 key).1.stats.l1Misses = s.stats.l1Misses + 1 ∧
    (hc_get s now2 key).1.stats.l2Misses = s.stats.l2Misses + 1 := by
  refine ⟨?_, ?_, ?_⟩ <;> simp [hc_get, hl1, hl2, h1, h2]

theorem hc_set_run (st : HState) (now : Nat) (key : String) (value : PyVal)
    (ttl : Option Nat) (hl1 : st.l1Enabled = true) (hl2 : st.l2Enabled = true) :
    hc_set st now key value ttl =
      ({ st with
          l1 := (l1_set st.l1 now key value (pyOrTtl ttl st.l1DefaultTtl)).1,
          l2 := (l2_set st.l2 now key value (some (pyOrTtl ttl st.l2DefaultTtl))).1,
          stats := { st.stats with sets := st.stats.sets + 1 } }, true) := by
  unfold hc_set
  simp [hl1, hl2, l1_set, l2_set]

theorem hc_delete_stats_of_true (st : HState) (key : String)
    (h : (hc_delete st key).2 = true) :
    (hc_delete st key).1.stats = { st.stats with deletes := st.stats.deletes + 1 } := by
  dsimp only [hc_delete] at h ⊢
  cases hl1 : st.l1Enabled <;> cases hl2 : st.l2Enabled <;>
    simp only [hl1, hl2] at h ⊢ <;>
    first
      | rfl
      | (cases hb1 : (l1_delete st.l1 key).2 <;>
          cases hb2 : (l2_delete st.l2 key).2 <;> simp_all)

/-- Claim C3 (amended): `invalidate` is `delete` plus bookkeeping: same
result and same tier states, and a successful `invalidate` increments
BOTH the `deletes` counter (inside the underlying `delete`) and the
`invalidations` counter. -/
theorem hc_invalidate_is_delete_with_both_counters (st : HState) (key : String) :
    (hc_invalidate st key).2 = (hc_delete st key).2 ∧
    (hc_invalidate st key).1.l1 = (hc_delete st key).1.l1 ∧
    (hc_invalidate st key).1.l2 = (hc_delete st key).1.l2 ∧
    ((hc_invalidate st key).2 = true →
      (hc_invalidate st key).1.stats.invalidations = st.stats.invalidations + 1 ∧
      (hc_invalidate st key).1.stats.deletes = st.stats.deletes + 1) := by
  have ha : (hc_invalidate st key).2 = (hc_delete st key).2 := by
    dsimp only [hc_invalidate]
    cases hb : (hc_delete st key).2 <;> simp [hb]
  refine ⟨ha, ?_, ?_, ?_⟩
  · dsimp only [hc_invalidate]
    cases hb : (hc_delete st key).2 <;> simp [hb]
  · dsimp only [hc_invalidate]
    cases hb : (hc_delete st key).2 <;> simp [hb]
  · intro hsucc
    have hd : (hc_delete st key).2 = true := ha.symm.trans hsucc
    have hst := hc_delete_stats_of_true st key hd
    dsimp only [hc_invalidate]
    rw [hd]
    constructor
    · simp [hst]
    · simp [hst]

/-- Witness for C3's amended theorem at a concrete state where the key
is present in both tiers, so `invalidate` succeeds. -/
theorem hc_invalidate_is_delete_with_both_counters_witness :
    (hc_invalidate bothTiersSt "k").2 = true ∧
    (hc_invalidate bothTiersSt "k").1.stats.invalidations =
      bothTiersSt.stats.invalidations + 1 ∧
    (hc_invalidate bothTiersSt "k").1.stats.deletes = bothTiersSt.stats.deletes + 1 := by
  have h := (hc_invalidate_is_delete_with_both_counters bothTiersSt "k").2.2.2 (by decide)
  exact ⟨by decide, h.1, h.2⟩

/-- Counterexample to claim C3 as stated: a successful `invalidate`
does increment the delete-specific counter — on this state it moves
`deletes` from 0 to 1 (while also incrementing `invalidations`). -/
theorem hc_invalidate_increments_deletes :
    (hc_invalidate bothTiersSt "k").2 = true ∧
    (hc_invalidate bothTiersSt "k").1.stats.deletes = 1 := by
  decide

/-- The one promotion the code performs, stated as a code fact: with
both tiers enabled, a key present and unexpired only in the in-process
LRU L2 tier is returned by `get`, which also writes the value into the
L1 tier with the fixed promotion TTL of 300 seconds
(`hierarchical_cache.py` line 78) — independent of, and possibly
exceeding, the original entry's TTL — so a direct L1 `get` immediately
afterward returns the same value. -/
theorem hc_get_l2_hit_promotes_to_l1 (st : HState) (now : Nat) (key : String)
    (item : CacheItem)
    (hl1 : st.l1Enabled = true) (hl2 : st.l2Enabled = true)
    (hd : alookup st.l1.data key = Option.none)
    (he : alookup st.l1.expiry key = Option.none)
    (hfound : alookup st.l2.entries key = some item)
    (hexp : item.isExpired now = false)
    (hval : item.value ≠ PyVal.none) :
    (hc_get st now key).2 = item.value ∧
    alookup (hc_get st now key).1.l1.data key = some item.value ∧
    alookup (hc_get st now key).1.l1.expiry key = some (now + 300) ∧
    (l1_get (hc_get st now key).1.l1 now key).2 = item.value := by
  have hl1get : l1_get st.l1 now key = (st.l1, PyVal.none) := by
    simp [l1_get, he, hd]
  have hl2get : l2_get st.l2 now key =
      ({ st.l2 with
          entries := aremove st.l2.entries key ++
            [(key, { item with
                      accessCount := item.accessCount + 1,
                      lastAccessed := now })],
          stats := { st.l2.stats with hits := st.l2.stats.hits + 1 } }, item.value) := by
    simp [l2_get, hfound, hexp]
  have hrun : hc_get st now key =
      ({ st with
          l1 := (l1_set st.l1 now key item.value 300).1,
          l2 := { st.l2 with
                  entries := aremove st.l2.entries key ++
                    [(key, { item with
                              accessCount := item.accessCount + 1,
                              lastAccessed := now })],
                  stats := { st.l2.stats with hits := st.l2.stats.hits + 1 } },
          stats := { st.stats with
                      l1Misses := st.stats.l1Misses + 1,
                      l2Hits := st.stats.l2Hits + 1 } }, item.value) := by
    unfold hc_get
    simp [hl1, hl2, hl1get, hl2get, hval]
  have hnotlt : ¬ (now + 300 < now) := by omega
  refine ⟨by rw [hrun], ?_, ?_, ?_⟩
  · rw [hrun]
    exact alookup_l1_set_data st.l1 now key item.value 300
  · rw [hrun]
    exact alookup_l1_set_expiry st.l1 now key item.value 300
  · rw [hrun]
    show (l1_get (l1_set st.l1 now key item.value 300).1 now key).2 = item.value
    simp [l1_get, l1_set, alookup_snoc_self, hnotlt]

/-- Concrete run of `hc_get_l2_hit_promotes_to_l1`: seed only L2 with
`("y", 1)` (stored with TTL 60) and run `get` at time 0; the promoted
L1 entry expires at 300, beyond the original TTL. -/
theorem hc_get_l2_hit_promotes_to_l1_example :
    (hc_get l2OnlySt 0 "y").2 = PyVal.int 1 ∧
    alookup (hc_get l2OnlySt 0 "y").1.l1.expiry "y" = some (0 + 300) ∧
    (l1_get (hc_get l2OnlySt 0 "y").1.l1 0 "y").2 = PyVal.int 1 := by
  have h := hc_get_l2_hit_promotes_to_l1 l2OnlySt 0 "y"
    (CacheItem.create (PyVal.int 1) (some 60) 0)
    rfl rfl rfl rfl rfl (by decide) (by decide)
  exact ⟨h.1, h.2.2.1, h.2.2.2⟩

/-- Claim C1 (amended): with both tiers enabled, a key present and
unexpired only in the Shared Tier — the TTL-indexed L1 store, not the
in-process LRU L2 tier — is returned by `get` directly from L1, but NO
promotion into the Fast Tier happens: the L2 tier is left completely
unchanged, and an immediate direct Fast Tier (L2) `get` of the same key
returns the absent result. (There is consequently no promoted entry
whose TTL could be compared with the original's.) -/
theorem hc_get_shared_only_hit_no_promotion (st : HState) (now : Nat) (key : String)
    (v : PyVal)
    (hl1 : st.l1Enabled = true) (hl2 : st.l2Enabled = true)
    (hd : alookup st.l1.data key = some v)
    (hv : v ≠ PyVal.none)
    (he : ∀ e, alookup st.l1.expiry key = some e → ¬ e < now)
    (habs : alookup st.l2.entries key = Option.none) :
    (hc_get st now key).2 = v ∧
    (hc_get st now key).1.l2 = st.l2 ∧
    (l2_get (hc_get st now key).1.l2 now key).2 = PyVal.none := by
  have hl1get : l1_get st.l1 now key = (st.l1, v) := by
    unfold l1_get
    cases hee : alookup st.l1.expiry key with
    | none => simp [hd]
    | some e =>
      have hne := he e hee
      simp [hne, hd]
  have hrun : hc_get st now key =
      ({ st with
          l1 := st.l1,
          stats := { st.stats with l1Hits := st.stats.l1Hits + 1 } }, v) := by
    unfold hc_get
    simp [hl1, hl1get, hv]
  refine ⟨by rw [hrun], by rw [hrun], ?_⟩
  rw [hrun]
  show (l2_get st.l2 now key).2 = PyVal.none
  simp [l2_get, habs]

/-- Witness for C1's amended theorem: seed only L1 with `("y", 1)`
(expiring at 100) and run `get` at time 0. -/
theorem hc_get_shared_only_hit_no_promotion_witness :
    (hc_get l1OnlySt 0 "y").2 = PyVal.int 1 ∧
    (hc_get l1OnlySt 0 "y").1.l2 = l1OnlySt.l2 ∧
    (l2_get (hc_get l1OnlySt 0 "y").1.l2 0 "y").2 = PyVal.none :=
  hc_get_shared_only_hit_no_promotion l1OnlySt 0 "y" (PyVal.int 1)
    rfl rfl rfl (by decide)
    (by
      intro e hee
      cases hee
      decide)
    rfl

/-- Counterexample to claim C1 as stated: with `("y", 1)` present and
unexpired only in the Shared Tier (the TTL-indexed L1 store; the LRU L2
tier is empty), `get` at time 0 returns the value, but nothing is
written into the Fast Tier — the L2 tier still has no entries, and a
direct Fast Tier `get` of `"y"` immediately afterward returns the
absent result rather than the value. -/
theorem hc_get_l1_only_fast_tier_still_misses :
    (hc_get l1OnlySt 0 "y").2 = PyVal.int 1 ∧
    (hc_get l1OnlySt 0 "y").1.l2.entries = [] ∧
    (l2_get (hc_get l1OnlySt 0 "y").1.l2 0 "y").2 = PyVal.none ∧
    PyVal.int 1 ≠ PyVal.none := by
  decide

/-- Claim C9: a `None` value stored through `set` is indistinguishable
from an absent key: `get` afterwards returns the absent result and
increments both tier miss counters, and the memoization wrapper, seeing
`None` from the cache, invokes the wrapped operation instead of serving
the stored `None`. -/
theorem stored_none_is_miss (st : HState) (now now2 : Nat) (key : String)
    (ttl : Option Nat) (hl1 : st.l1Enabled = true) (hl2 : st.l2Enabled = true) :
    ((hc_get (hc_set st now key PyVal.none ttl).1 now2 key).2 = PyVal.none) ∧
    ((hc_get (hc_set st now key PyVal.none ttl).1 now2 key).1.stats.l1Misses =
      (hc_set st now key PyVal.none ttl).1.stats.l1Misses + 1) ∧
    ((hc_get (hc_set st now key PyVal.none ttl).1 now2 key).1.stats.l2Misses =
      (hc_set st now key PyVal.none ttl).1.stats.l2Misses + 1) ∧
    (∀ (f : Nat → Except Unit PyVal) (cond : PyVal → Bool) (s : Except Unit Bool),
      1 ≤ (cache_result_wrapper PyVal.none f cond s).2) := by
  have hrunset := hc_set_run st now key PyVal.none ttl hl1 hl2
  rw [hrunset]
  have hg1 : (l1_get (l1_set st.l1 now key PyVal.none
      (pyOrTtl ttl st.l1DefaultTtl)).1 now2 key).2 = PyVal.none :=
    l1_get_stored_none _ now2 key (alookup_l1_set_data _ now key _ _)
  have hg2 : (l2_get (l2_set st.l2 now key PyVal.none
      (some (pyOrTtl ttl st.l2DefaultTtl))).1 now2 key).2 = PyVal.none :=
    l2_get_stored_none _ now2 key _ (alookup_l2_set_entries _ now key _ _) rfl
  obtain ⟨ha, hb, hc⟩ := hc_get_both_none
    { st with
        l1 := (l1_set st.l1 now key PyVal.none (pyOrTtl ttl st.l1DefaultTtl)).1,
        l2 := (l2_set st.l2 now key PyVal.none (some (pyOrTtl ttl st.l2DefaultTtl))).1,
        stats := { st.stats with sets := st.stats.sets + 1 } }
    now2 key hl1 hl2 hg1 hg2
  refine ⟨ha, hb, hc, ?_⟩
  intro f cond s
  unfold cache_result_wrapper
  cases hf : f 0 <;> simp [hf]

/-- Witness for C9: store `None` into an empty cache and read it back. -/
theorem stored_none_is_miss_witness :
    (hc_get (hc_set emptyHState 0 "k" PyVal.none Option.none).1 0 "k").2 =
      PyVal.none :=
  (stored_none_is_miss emptyHState 0 0 "k" Option.none rfl rfl).1

end VolumeRanking
